import Mathlib

/-!
Verification development for the QuitaMarcas watermark-removal core
(`WatermarkRemove/wm_remove.py`).  The Python functions are shallowly
embedded: numpy float arithmetic is modelled over `ℚ`, uint8 images as
`ℤ → ℤ → Pix` pixel grids (row index first, as in numpy `[y, x]`
indexing), and external OpenCV routines (Gaussian blurs, template
matching) as explicit parameters, since their code is not part of the
repository.
-/

namespace QuitaMarcas

/-- Pixel of a 3-channel 8-bit image, in the source's BGR channel order:
`(b, g, r)`, each in `0..255`. -/
abbrev Pix := ℕ × ℕ × ℕ

/-- Image as a pixel lookup; first argument is the row (`y`), second the
column (`x`), matching numpy indexing `image[y, x]`. -/
abbrev Grid := ℤ → ℤ → Pix

/-- Round half up, modelling scalar float-to-int rounding. -/
def roundHalfUp (q : ℚ) : ℤ := Int.floor (q + 1/2)

/-- Clamp an integer to the uint8 range `0..255` (numpy `np.clip` followed
by a cast). -/
def clamp8 (z : ℤ) : ℕ := (min 255 (max 0 z)).toNat

/-! ### align_watermark (wm_remove.py lines 46-91) -/

/-- Horizontal anchor of an alignment spec (`side_x`). -/
inductive SideX | left | center | right
deriving DecidableEq

/-- Vertical anchor of an alignment spec (`side_y`). -/
inductive SideY | top | center | bottom
deriving DecidableEq

/-- Embedding of `align_watermark`: resolves an alignment spec against
image dimensions `(h_img, w_img)` and watermark dimensions `(h_wm, w_wm)`.
Python's floor division `//` is `Int.fdiv`.  The result is returned
unchanged even when out of the image bounds (the source never clamps). -/
def align_watermark (h_img w_img h_wm w_wm : ℤ) (offset_x offset_y : ℤ)
    (side_x : SideX) (side_y : SideY) : ℤ × ℤ :=
  (match side_x with
    | .left => offset_x
    | .center => (w_img - w_wm).fdiv 2 + offset_x
    | .right => w_img - w_wm - offset_x,
   match side_y with
    | .top => offset_y
    | .center => (h_img - h_wm).fdiv 2 + offset_y
    | .bottom => h_img - h_wm - offset_y)

/-! ### Alpha-unblend core (wm_remove.py lines 336-364) -/

/-- Maximum of two rationals, written out so that it evaluates. -/
def qmax (a b : ℚ) : ℚ := if a ≤ b then b else a

/-- Minimum of two rationals, written out so that it evaluates. -/
def qmin (a b : ℚ) : ℚ := if b ≤ a then b else a

/-- Adjusted alpha of a watermark pixel:
`np.clip(alpha * alpha_adjust, 0, 255)` (line 337). -/
def adjAlpha (alpha_adjust a : ℚ) : ℚ := qmin 255 (qmax 0 (a * alpha_adjust))

/-- Denominator of the Fire formula, `255.0 - alpha_val` (lines 349-350).
The source divides by this value with no epsilon clamp. -/
def fireDenom (alpha_val : ℚ) : ℚ := 255 - alpha_val

/-- The Fire formula applied to one channel (lines 349-354):
`new_val = (255/(255-a)) * composite + (-a/(255-a)) * overlay`. -/
def unblendVal (alpha_val composite overlay : ℚ) : ℚ :=
  (255 / fireDenom alpha_val) * composite +
    (-alpha_val / fireDenom alpha_val) * overlay

/-- One-pixel unblend step of `remove_watermark` (lines 344-355): the Fire
formula is applied only when the adjusted alpha exceeds
`transparency_threshold`; otherwise the observed composite is kept. -/
def unblendPix (transparency_threshold alpha_adjust : ℚ)
    (a composite overlay : ℚ) : ℚ :=
  let av := adjAlpha alpha_adjust a
  if transparency_threshold < av then unblendVal av composite overlay
  else composite

/-- Final 8-bit quantization of a reconstructed channel:
`np.clip(roi, 0, 255)` (line 364) followed by `.astype(np.uint8)`
(line 379), which truncates. -/
def quant8 (q : ℚ) : ℤ := Int.floor (qmin 255 (qmax 0 q))

/-- Natural-number version of `quant8` (the value is nonnegative). -/
def quant8n (q : ℚ) : ℕ := (quant8 q).toNat

/-- Forward compositing model taken from the spec (§4.1): for channel
values `bg`, `w` and an 8-bit alpha `a`,
`composite = bg * (1 - a/255) + w * (a/255)`. -/
def compositeQ (bg w a : ℚ) : ℚ := bg * ((255 - a) / 255) + w * (a / 255)

/-- Row scan of the unblend loop (lines 342-361) for a single channel.
`a j`, `c j`, `w j` are the adjusted alpha, the composite (image) value
and the watermark value at column `j` of the current row of the overlap
region.  Processing is left to right; the opaque-smoothing rule at column
`j+1` reads the already-processed value of column `j`. -/
def rowVal (transparency_threshold opaque_threshold : ℚ)
    (a c w : ℕ → ℚ) : ℕ → ℚ
  | 0 =>
    if transparency_threshold < a 0 then unblendVal (a 0) (c 0) (w 0)
    else c 0
  | j + 1 =>
    if transparency_threshold < a (j + 1) then
      let u := unblendVal (a (j + 1)) (c (j + 1)) (w (j + 1))
      if opaque_threshold < a (j + 1) then
        let factor := (a (j + 1) - opaque_threshold) / (255 - opaque_threshold)
        factor * rowVal transparency_threshold opaque_threshold a c w j +
          (1 - factor) * u
      else u
    else c (j + 1)

/-! ### OpenCV color-space models

`cv2.cvtColor` is an external library routine; these definitions model its
documented 8-bit BGR↔HSV and BGR→GRAY conversions (hue stored as
`H/2 ∈ 0..179`, saturation and value in `0..255`). -/

/-- Model of OpenCV 8-bit `COLOR_BGR2HSV` on one pixel `(b, g, r)`,
returning `(h, s, v)`. -/
def bgr2hsv8 (p : Pix) : Pix :=
  let b : ℚ := p.1
  let g : ℚ := p.2.1
  let r : ℚ := p.2.2
  let v := qmax b (qmax g r)
  let m := qmin b (qmin g r)
  let d := v - m
  let s : ℤ := if v = 0 then 0 else roundHalfUp (255 * d / v)
  let hDeg : ℚ :=
    if d = 0 then 0
    else if v = r then 60 * (g - b) / d
    else if v = g then 120 + 60 * (b - r) / d
    else 240 + 60 * (r - g) / d
  let hDeg2 := if hDeg < 0 then hDeg + 360 else hDeg
  let h : ℤ := roundHalfUp (hDeg2 / 2) % 180
  (h.toNat, s.toNat, max p.1 (max p.2.1 p.2.2))

/-- Final saturate-cast of a rational RGB triple to a BGR uint8 pixel. -/
def pixOfRGBQ (rgb : ℚ × ℚ × ℚ) : Pix :=
  (clamp8 (roundHalfUp rgb.2.2), clamp8 (roundHalfUp rgb.2.1),
    clamp8 (roundHalfUp rgb.1))

/-- Model of OpenCV 8-bit `COLOR_HSV2BGR` on one pixel `(h, s, v)`,
returning `(b, g, r)`. -/
def hsv2bgr8 (p : Pix) : Pix :=
  let s : ℚ := (p.2.1 : ℚ) / 255
  let v : ℚ := p.2.2
  let hDeg : ℚ := 2 * p.1
  let sector : ℤ := Int.floor (hDeg / 60)
  let f : ℚ := hDeg / 60 - sector
  let pp := v * (1 - s)
  let qq := v * (1 - s * f)
  let tt := v * (1 - s * (1 - f))
  let k := sector % 6
  let rgb : ℚ × ℚ × ℚ :=
    if k = 0 then (v, tt, pp)
    else if k = 1 then (qq, v, pp)
    else if k = 2 then (pp, v, tt)
    else if k = 3 then (pp, qq, v)
    else if k = 4 then (tt, pp, v)
    else (v, pp, qq)
  pixOfRGBQ rgb

/-- The 8-bit BGR→HSV→BGR round trip a pixel undergoes in the disguise
filter's color-preserving blend. -/
def hsvRoundTrip (p : Pix) : Pix := hsv2bgr8 (bgr2hsv8 p)

/-- Model of OpenCV 8-bit `COLOR_BGR2GRAY`:
`round(0.299 R + 0.587 G + 0.114 B)`. -/
def gray8 (p : Pix) : ℤ :=
  roundHalfUp ((299 / 1000) * (p.2.2 : ℚ) + (587 / 1000) * (p.2.1 : ℚ) +
    (114 / 1000) * (p.1 : ℚ))

/-- Per-channel absolute difference (`cv2.absdiff`). -/
def absdiffPix (p q : Pix) : Pix :=
  (max p.1 q.1 - min p.1 q.1, max p.2.1 q.2.1 - min p.2.1 q.2.1,
    max p.2.2 q.2.2 - min p.2.2 q.2.2)

/-- Clamp all channels of a pixel to `0..255` (the `np.clip` on write-back,
line 447; channel values are already nonnegative naturals). -/
def pixMin255 (p : Pix) : Pix := (min 255 p.1, min 255 p.2.1, min 255 p.2.2)

/-- Abstract Gaussian blurs: `cv2.GaussianBlur` is an external routine, so
the four blur invocations of the disguise filter are modelled as arbitrary
local-grid transformers (`mainBlur` is line 414, `edgeBlur1`/`edgeBlur2`
are lines 469-470, `flatBlur` is line 488). -/
structure BlurModel where
  mainBlur : (ℕ → ℕ → Pix) → ℕ → ℕ → Pix
  edgeBlur1 : (ℕ → ℕ → Pix) → ℕ → ℕ → Pix
  edgeBlur2 : (ℕ → ℕ → Pix) → ℕ → ℕ → Pix
  flatBlur : (ℕ → ℕ → Pix) → ℕ → ℕ → Pix

/-- Membership test for the half-open rectangle
`[x0, x1) × [y0, y1)` at pixel `(py, px)`. -/
def inRectB (x0 y0 x1 y1 py px : ℤ) : Bool :=
  decide (y0 ≤ py) && decide (py < y1) && decide (x0 ≤ px) &&
    decide (px < x1)

/-! ### surface_blur (wm_remove.py lines 452-494) -/

/-- Embedding of `surface_blur` on a local grid: edge strength is the
grayscale of the absolute difference of two Gaussian blurs; flat
(non-edge) pixels that are also inside the watermark mask are replaced by
a third blur, all others are kept. -/
def surface_blur (B : BlurModel) (threshold strength : ℤ)
    (mask : ℕ → ℕ → Bool) (image : ℕ → ℕ → Pix) : ℕ → ℕ → Pix :=
  let blur1 := B.edgeBlur1 image
  let blur2 := B.edgeBlur2 image
  let blurred := B.flatBlur image
  fun i j =>
    if gray8 (absdiffPix (blur1 i j) (blur2 i j)) ≤ threshold ∧
        mask i j = true then
      blurred i j
    else image i j

/-! ### apply_jpeg_noise_filter (wm_remove.py lines 382-449) -/

/-- Embedding of `apply_jpeg_noise_filter`.  `watermark_alpha` is the
(adjusted) alpha over the overlap region in local coordinates;
`(x0, y0, x1, y1)` are the `roi_coords`.  Only the rectangle is written
back (line 447); inside it, luminance (V) is kept from the original while
hue and saturation come from the masked blur (lines 427-435), then
`surface_blur` runs when `edge_threshold > 0` (lines 438-444). -/
def apply_jpeg_noise_filter (B : BlurModel) (image : Grid)
    (watermark_alpha : ℕ → ℕ → ℚ) (x0 y0 x1 y1 : ℤ)
    (strength edge_threshold : ℤ) (transparency_threshold : ℚ) : Grid :=
  let roi : ℕ → ℕ → Pix := fun i j => image (y0 + i) (x0 + j)
  let mask : ℕ → ℕ → Bool := fun i j =>
    decide (transparency_threshold < watermark_alpha i j)
  let blurred := B.mainBlur roi
  let blur_canvas : ℕ → ℕ → Pix := fun i j =>
    if mask i j then blurred i j else roi i j
  let result_with_color : ℕ → ℕ → Pix := fun i j =>
    let hb := bgr2hsv8 (blur_canvas i j)
    let ho := bgr2hsv8 (roi i j)
    hsv2bgr8 (hb.1, hb.2.1, ho.2.2)
  let final : ℕ → ℕ → Pix :=
    if 0 < edge_threshold then
      surface_blur B edge_threshold strength mask result_with_color
    else result_with_color
  fun py px =>
    if inRectB x0 y0 x1 y1 py px then
      pixMin255 (final (py - y0).toNat (px - x0).toNat)
    else image py px

/-! ### remove_watermark (wm_remove.py lines 265-379)

The position is modelled at integer precision; the sub-pixel translation
of the watermark (lines 303-312) is an external `cv2.warpAffine` call, so
the watermark grids passed here stand for the already-translated
watermark.  `wmColor` is its BGR part, `wmAlpha` its 8-bit alpha
channel. -/

/-- The unblend pass of `remove_watermark` (lines 314-365): image copy
with the overlap rectangle replaced by the row-scanned Fire formula,
clipped and cast back to uint8. -/
def remove_core (h_img w_img h_wm w_wm : ℤ) (image : Grid) (wmColor : Grid)
    (wmAlpha : ℤ → ℤ → ℕ) (x y : ℤ)
    (transparency_threshold opaque_threshold alpha_adjust : ℚ) : Grid :=
  let x0 := max 0 x
  let y0 := max 0 y
  let x1 := min w_img (x + w_wm)
  let y1 := min h_img (y + h_wm)
  let xs := max 0 (-x)
  let ys := max 0 (-y)
  fun py px =>
    if inRectB x0 y0 x1 y1 py px then
      let i := (py - y0).toNat
      let j := (px - x0).toNat
      let aF : ℕ → ℚ := fun j' =>
        adjAlpha alpha_adjust (wmAlpha (ys + i) (xs + j'))
      let row := fun (ch : Pix → ℕ) =>
        rowVal transparency_threshold opaque_threshold aF
          (fun j' => (ch (image (y0 + i) (x0 + j')) : ℚ))
          (fun j' => (ch (wmColor (ys + i) (xs + j')) : ℚ)) j
      (quant8n (row Prod.fst), quant8n (row (fun p => p.2.1)),
        quant8n (row (fun p => p.2.2)))
    else image py px

/-- Embedding of `remove_watermark`: empty overlap returns the image
unchanged (line 326); otherwise the unblend pass runs and, when
`apply_jpeg_filter` is set, its result is piped through
`apply_jpeg_noise_filter` with the adjusted alpha and the same overlap
rectangle (lines 368-377). -/
def remove_watermark (B : BlurModel) (h_img w_img h_wm w_wm : ℤ)
    (image : Grid) (wmColor : Grid) (wmAlpha : ℤ → ℤ → ℕ) (x y : ℤ)
    (transparency_threshold opaque_threshold alpha_adjust : ℚ)
    (apply_jpeg_filter : Bool) (strength edge_threshold : ℤ) : Grid :=
  let x0 := max 0 x
  let y0 := max 0 y
  let x1 := min w_img (x + w_wm)
  let y1 := min h_img (y + h_wm)
  let xs := max 0 (-x)
  let ys := max 0 (-y)
  if x1 ≤ x0 ∨ y1 ≤ y0 then image
  else
    let core := remove_core h_img w_img h_wm w_wm image wmColor wmAlpha x y
      transparency_threshold opaque_threshold alpha_adjust
    if apply_jpeg_filter then
      apply_jpeg_noise_filter B core
        (fun i j => adjAlpha alpha_adjust (wmAlpha (ys + i) (xs + j)))
        x0 y0 x1 y1 strength edge_threshold transparency_threshold
    else core

/-! ### Buffer/aliasing model of remove_watermark

To state claims about mutation of the caller's numpy buffer, the arrays
are placed in an explicit heap of buffers.  `image.copy()` (line 329) and
the copy inside `apply_jpeg_noise_filter` (line 399) become fresh
allocations; the in-place writes of the source all target those fresh
buffers, which the model reflects by allocating them with their final
contents. -/

/-- A heap of image buffers: `bufs` maps buffer ids to contents, ids
`≥ next` are unallocated. -/
structure Heap where
  bufs : ℕ → Grid
  next : ℕ

/-- Allocate a fresh buffer holding `g`, returning the new heap and the
fresh id. -/
def allocBuf (h : Heap) (g : Grid) : Heap × ℕ :=
  (⟨Function.update h.bufs h.next g, h.next + 1⟩, h.next)

/-- Buffer-level embedding of `remove_watermark`: takes the heap and the
id of the caller's image buffer, returns the heap after the call and the
id of the returned buffer.  With an empty overlap the input buffer itself
is returned untouched (line 326); otherwise the unblend runs on a copy,
and the JPEG filter (when enabled) copies again. -/
def remove_watermark_heap (B : BlurModel) (h : Heap) (imgRef : ℕ)
    (h_img w_img h_wm w_wm : ℤ) (wmColor : Grid) (wmAlpha : ℤ → ℤ → ℕ)
    (x y : ℤ) (transparency_threshold opaque_threshold alpha_adjust : ℚ)
    (apply_jpeg_filter : Bool) (strength edge_threshold : ℤ) : Heap × ℕ :=
  let image := h.bufs imgRef
  let x0 := max 0 x
  let y0 := max 0 y
  let x1 := min w_img (x + w_wm)
  let y1 := min h_img (y + h_wm)
  let xs := max 0 (-x)
  let ys := max 0 (-y)
  if x1 ≤ x0 ∨ y1 ≤ y0 then (h, imgRef)
  else
    let core := remove_core h_img w_img h_wm w_wm image wmColor wmAlpha x y
      transparency_threshold opaque_threshold alpha_adjust
    let a1 := allocBuf h core
    if apply_jpeg_filter then
      let filtered := apply_jpeg_noise_filter B core
        (fun i j => adjAlpha alpha_adjust (wmAlpha (ys + i) (xs + j)))
        x0 y0 x1 y1 strength edge_threshold transparency_threshold
      allocBuf a1.1 filtered
    else a1

/-! ### Channel-access model of remove_watermark (claim C5)

`remove_watermark` performs no validation of channel counts (lines
265-301 contain none).  This definition records, per the source's control
flow, which channel accesses occur and when they raise:
* with an empty overlap the function returns before touching channels;
* `wm_cropped[:, :, 3]` (line 336) raises an `IndexError` when the
  watermark has fewer than 4 channels;
* the loop body reads/writes image channels `0..2` (lines 354-355, 361),
  raising when the image has fewer than 3 channels and some pixel passes
  the transparency threshold (`someAlphaAboveThreshold`);
* `cv2.cvtColor(..., COLOR_BGR2HSV)` inside the JPEG filter (line 427)
  raises unless the image has exactly 3 channels. -/

/-- Runtime errors observable from `remove_watermark`'s channel handling. -/
inductive RemoveErr
  | indexError
  | cvtError
deriving DecidableEq

/-- Channel-count behavior of a `remove_watermark` call. -/
def removeChannelCheck (imgChannels wmChannels : ℕ)
    (overlapNonempty someAlphaAboveThreshold apply_jpeg_filter : Bool) :
    Except RemoveErr Unit :=
  if !overlapNonempty then .ok ()
  else if wmChannels < 4 then .error .indexError
  else if someAlphaAboveThreshold && decide (imgChannels < 3) then
    .error .indexError
  else if apply_jpeg_filter && decide (imgChannels ≠ 3) then
    .error .cvtError
  else .ok ()

/-! ### find_wm, exhaustive CPU path (wm_remove.py lines 196-255) -/

/-- `wm_y_start = max(0, -y)` (line 216). -/
def wm_y_start (y : ℤ) : ℤ := max 0 (-y)

/-- `wm_x_start = max(0, -x)` (line 217). -/
def wm_x_start (x : ℤ) : ℤ := max 0 (-x)

/-- `wm_y_end = min(h_wm, h_img - y)` (line 218). -/
def wm_y_end (h_img h_wm y : ℤ) : ℤ := min h_wm (h_img - y)

/-- `wm_x_end = min(w_wm, w_img - x)` (line 219). -/
def wm_x_end (w_img w_wm x : ℤ) : ℤ := min w_wm (w_img - x)

/-- Pixel count of the clipped watermark region,
`visible_mask.size` (line 242). -/
def clipSize (ys xs ye xe : ℤ) : ℕ := (ye - ys).toNat * (xe - xs).toNat

/-- Count of visible pixels of the clipped watermark region
(`np.sum(wm_alpha/255 > 0.1)`, lines 236-239): 8-bit alpha `≥ 26`. -/
def countVisible (wmAlpha : ℤ → ℤ → ℕ) (ys xs ye xe : ℤ) : ℕ :=
  ((List.range (ye - ys).toNat).map (fun i =>
    (List.range (xe - xs).toNat).countP (fun j =>
      decide (26 ≤ wmAlpha (ys + i) (xs + j))))).sum

/-- Whether the exhaustive scan scores candidate `(x, y)` rather than
skipping it (lines 215-243): both clipped regions must be nonempty and at
least 30% of the clipped region's pixels must be visible
(`num_visible_pixels < 0.3 * visible_mask.size` skips; modelled exactly
as `10 * num < 3 * size`). -/
def candidateScored (h_img w_img h_wm w_wm : ℤ) (wmAlpha : ℤ → ℤ → ℕ)
    (x y : ℤ) : Bool :=
  if decide (wm_y_end h_img h_wm y ≤ wm_y_start y) ||
      decide (wm_x_end w_img w_wm x ≤ wm_x_start x) then false
  else if decide (min h_img (y + h_wm) ≤ max 0 y) ||
      decide (min w_img (x + w_wm) ≤ max 0 x) then false
  else
    !decide (10 * countVisible wmAlpha (wm_y_start y) (wm_x_start x)
        (wm_y_end h_img h_wm y) (wm_x_end w_img w_wm x) <
      3 * clipSize (wm_y_start y) (wm_x_start x) (wm_y_end h_img h_wm y)
        (wm_x_end w_img w_wm x))

/-- The claim's scoring precondition, following the spec's glossary: at
least 30% of the watermark's FULL footprint (`h_wm * w_wm`, before
clipping) visible and within image bounds. -/
def footprintVisibleB (h_img w_img h_wm w_wm : ℤ) (wmAlpha : ℤ → ℤ → ℕ)
    (x y : ℤ) : Bool :=
  decide (3 * (h_wm * w_wm).toNat ≤
    10 * countVisible wmAlpha (wm_y_start y) (wm_x_start x)
      (wm_y_end h_img h_wm y) (wm_x_end w_img w_wm x))

/-- Whether `(x, y)` lies in the scanned search window
`[cx - r, cx + r) × [cy - r, cy + r)` (lines 206-214). -/
def inSearchWindow (cx cy r x y : ℤ) : Bool :=
  decide (cx - r ≤ x) && decide (x < cx + r) && decide (cy - r ≤ y) &&
    decide (y < cy + r)

/-- Sum of absolute per-channel differences over three channels
(line 245). -/
def pixAbsDiff (p q : Pix) : ℕ :=
  ((p.1 : ℤ) - q.1).natAbs + ((p.2.1 : ℤ) - q.2.1).natAbs +
    ((p.2.2 : ℤ) - q.2.2).natAbs

/-- `total_diff = np.sum(diff[visible_mask])` (line 246): absolute
differences restricted to visible watermark pixels of the clipped
region. -/
def totalDiff (image wmColor : Grid) (wmAlpha : ℤ → ℤ → ℕ)
    (iys ixs ys xs ye xe : ℤ) : ℕ :=
  ((List.range (ye - ys).toNat).map (fun i =>
    ((List.range (xe - xs).toNat).map (fun j =>
      if 26 ≤ wmAlpha (ys + i) (xs + j) then
        pixAbsDiff (image (iys + i) (ixs + j)) (wmColor (ys + i) (xs + j))
      else 0)).sum)).sum

/-- Score of a candidate position in the exhaustive scan (lines 215-249):
`none` when the candidate is skipped, otherwise the mean absolute
difference over visible pixels. -/
def candScore (h_img w_img h_wm w_wm : ℤ) (image wmColor : Grid)
    (wmAlpha : ℤ → ℤ → ℕ) (x y : ℤ) : Option ℚ :=
  if candidateScored h_img w_img h_wm w_wm wmAlpha x y then
    let ys := wm_y_start y
    let xs := wm_x_start x
    let ye := wm_y_end h_img h_wm y
    let xe := wm_x_end w_img w_wm x
    some ((totalDiff image wmColor wmAlpha (max 0 y) (max 0 x) ys xs ye xe : ℚ) /
      (countVisible wmAlpha ys xs ye xe : ℚ))
  else none

/-- One step of the scan's running minimum (lines 251-253): `none` models
the initial `min_diff = inf`; a strict `<` keeps the earliest candidate on
ties. -/
def scanStep (score : ℤ × ℤ → Option ℚ) (st : (ℤ × ℤ) × Option ℚ)
    (cand : ℤ × ℤ) : (ℤ × ℤ) × Option ℚ :=
  match score cand with
  | none => st
  | some s =>
    match st.2 with
    | none => (cand, some s)
    | some m => if s < m then (cand, some s) else st

/-- Exhaustive CPU search (lines 196-255): row-major scan (y outer, x
inner) of the `2r × 2r` window around the center (image center when no
center is supplied; Python `//` is `Int.fdiv`), starting from
`best = (0, 0)`, `min_diff = inf`. -/
def find_wm_cpu (h_img w_img h_wm w_wm : ℤ) (image wmColor : Grid)
    (wmAlpha : ℤ → ℤ → ℕ) (radio : ℤ) (center_x center_y : Option ℤ) :
    ℤ × ℤ :=
  let cx := center_x.getD (w_img.fdiv 2)
  let cy := center_y.getD (h_img.fdiv 2)
  let cands := (List.range (2 * radio).toNat).flatMap (fun dy =>
    (List.range (2 * radio).toNat).map (fun dx =>
      (cx - radio + dx, cy - radio + dy)))
  (cands.foldl
    (scanStep (fun c =>
      candScore h_img w_img h_wm w_wm image wmColor wmAlpha c.1 c.2))
    ((0, 0), none)).1

/-- Embedding of `find_wm_gpu` (lines 94-160): the whole `try` block —
the external OpenCL template matching — is abstracted as the `backend`
outcome; the `except` clause turns any raised error into `None`. -/
def find_wm_gpu (backend : Except String (ℤ × ℤ)) : Option (ℤ × ℤ) :=
  match backend with
  | .ok p => some p
  | .error _ => none

/-- Embedding of `find_wm` (lines 163-255): when `use_gpu` is set and
OpenCL is available, try the accelerated path and fall back to the
exhaustive CPU scan if it returned `None`; otherwise go straight to the
CPU scan. -/
def find_wm (use_gpu haveOpenCL : Bool) (backend : Except String (ℤ × ℤ))
    (h_img w_img h_wm w_wm : ℤ) (image wmColor : Grid)
    (wmAlpha : ℤ → ℤ → ℕ) (radio : ℤ) (center_x center_y : Option ℤ) :
    ℤ × ℤ :=
  if use_gpu && haveOpenCL then
    match find_wm_gpu backend with
    | some p => p
    | none => find_wm_cpu h_img w_img h_wm w_wm image wmColor wmAlpha radio
        center_x center_y
  else find_wm_cpu h_img w_img h_wm w_wm image wmColor wmAlpha radio
    center_x center_y

/-! ### Concrete fixtures used by witnesses and counterexamples -/

/-- Blur model whose four Gaussian blurs are the identity (an admissible
instantiation of the external `cv2.GaussianBlur`). -/
def idBlur : BlurModel := ⟨fun g => g, fun g => g, fun g => g, fun g => g⟩

/-- Constant test image whose every pixel is BGR `(0, 4, 255)`. -/
def flatImage : Grid := fun _ _ => (0, 4, 255)

/-- Local alpha map that is zero everywhere (no watermark). -/
def zeroAlphaLocal : ℕ → ℕ → ℚ := fun _ _ => 0

/-- Fully opaque watermark alpha channel. -/
def wmAlphaFull : ℤ → ℤ → ℕ := fun _ _ => 255

/-- Constant watermark color grid. -/
def cWmColor : Grid := fun _ _ => (10, 20, 30)

/-- Constant row of adjusted alphas, above the opaque threshold. -/
def wAlphaRow : ℕ → ℚ := fun _ => 250

/-- Constant row of composite values. -/
def wCompRow : ℕ → ℚ := fun _ => 100

/-- Constant row of watermark overlay values. -/
def wOverRow : ℕ → ℚ := fun _ => 50

/-- One-buffer heap holding the test image. -/
def heap0 : Heap := ⟨fun _ => flatImage, 1⟩

/-! ### Helper lemmas -/

/-- Unfolding lemma for `qmax`. -/
theorem qmax_eq_right {a b : ℚ} (h : a ≤ b) : qmax a b = b := if_pos h

/-- Unfolding lemma for `qmin`. -/
theorem qmin_eq_right {a b : ℚ} (h : b ≤ a) : qmin a b = b := if_pos h

/-- Clamped channel values never exceed 255. -/
theorem clamp8_le_255 (z : ℤ) : clamp8 z ≤ 255 := by
  unfold clamp8
  have h : min 255 (max 0 z) ≤ (255 : ℤ) := min_le_left _ _
  omega

/-- The write-back clip is the identity on saturate-cast pixels. -/
theorem pixMin255_pixOfRGBQ (v : ℚ × ℚ × ℚ) :
    pixMin255 (pixOfRGBQ v) = pixOfRGBQ v := by
  unfold pixMin255 pixOfRGBQ
  simp [min_eq_right (clamp8_le_255 _)]

/-- The write-back clip is the identity on HSV→BGR outputs. -/
theorem pixMin255_hsv2bgr8 (q : Pix) :
    pixMin255 (hsv2bgr8 q) = hsv2bgr8 q :=
  pixMin255_pixOfRGBQ _

/-- Pointwise behavior of the disguise filter at a pixel inside the
processed rectangle whose (adjusted) alpha is not above the transparency
threshold: the pixel is excluded from the blur canvas and from the
surface blur, but still passes through the 8-bit BGR→HSV→BGR round trip
of the color-preserving blend. -/
theorem jpeg_filter_unmasked_pixel (B : BlurModel) (image : Grid)
    (watermark_alpha : ℕ → ℕ → ℚ) (x0 y0 x1 y1 : ℤ)
    (strength edge_threshold : ℤ) (transparency_threshold : ℚ)
    (py px : ℤ) (hin : inRectB x0 y0 x1 y1 py px = true)
    (hmask : ¬ transparency_threshold <
      watermark_alpha (py - y0).toNat (px - x0).toNat) :
    apply_jpeg_noise_filter B image watermark_alpha x0 y0 x1 y1 strength
        edge_threshold transparency_threshold py px =
      hsvRoundTrip (image py px) := by
  have hb : (y0 ≤ py ∧ py < y1) ∧ x0 ≤ px ∧ px < x1 := by
    simpa [inRectB, and_assoc] using hin
  have hpy : y0 + (((py - y0).toNat : ℤ)) = py := by omega
  have hpx : x0 + (((px - x0).toNat : ℤ)) = px := by omega
  unfold apply_jpeg_noise_filter
  simp only [hin, if_true]
  unfold surface_blur
  by_cases hE : 0 < edge_threshold
  · simp only [if_pos hE, hmask, decide_False, Bool.false_eq_true,
      and_false, if_false, if_neg hmask, hpy, hpx]
    exact pixMin255_hsv2bgr8 _
  · simp only [if_neg hE, hmask, decide_False, Bool.false_eq_true,
      if_false, if_neg hmask, hpy, hpx]
    exact pixMin255_hsv2bgr8 _

/-- Evaluation of the BGR→HSV model at the fixture pixel `(0, 4, 255)`:
hue `0.94°` rounds to stored hue 0, saturation and value are 255. -/
theorem bgr2hsv8_fixture : bgr2hsv8 (0, 4, 255) = (0, 255, 255) := by
  unfold bgr2hsv8
  norm_num [qmax, qmin, roundHalfUp]
  decide

/-- Evaluation of the HSV→BGR model at `(0, 255, 255)`: pure red,
`(b, g, r) = (0, 0, 255)`. -/
theorem hsv2bgr8_fixture : hsv2bgr8 (0, 255, 255) = (0, 0, 255) := by
  unfold hsv2bgr8 pixOfRGBQ clamp8
  norm_num [roundHalfUp]
  decide

/-- The 8-bit HSV round trip is lossy at `(0, 4, 255)`: it returns
`(0, 0, 255)`. -/
theorem hsvRoundTrip_fixture : hsvRoundTrip (0, 4, 255) = (0, 0, 255) := by
  unfold hsvRoundTrip
  rw [bgr2hsv8_fixture, hsv2bgr8_fixture]

/-! ### Claim C8 -/

/-- C8: resolving an alignment spec is pure and deterministic (repeated
calls with equal arguments agree), with `side_x = right` a change of the
image width by `d` shifts the resolved `x` by exactly `d`, and no
clamping to image bounds ever happens (with `side_x = left` the raw
offset is returned even when out of range). -/
theorem C8_alignment_resolution (h_img w_img h_wm w_wm offset_x offset_y
    d : ℤ) (sx : SideX) (sy : SideY) :
    align_watermark h_img w_img h_wm w_wm offset_x offset_y sx sy =
      align_watermark h_img w_img h_wm w_wm offset_x offset_y sx sy ∧
    (align_watermark h_img (w_img + d) h_wm w_wm offset_x offset_y
        .right sy).1 =
      (align_watermark h_img w_img h_wm w_wm offset_x offset_y
        .right sy).1 + d ∧
    (align_watermark h_img w_img h_wm w_wm offset_x offset_y
        .left sy).1 = offset_x := by
  refine ⟨rfl, ?_, rfl⟩
  show w_img + d - w_wm - offset_x = w_img - w_wm - offset_x + d
  ring

/-! ### Claim C1 -/

/-- C1 counterexample: at `B = 0`, `W = 255`, `alpha = 6` (normalized
`a = 6/255 ≈ 0.0235 ∈ [0, 0.99]`), the synthesized composite is 6, the
unblend step leaves it unchanged (6 is not above the transparency
threshold 6), and the quantized result differs from `B` by 6 > 2. -/
theorem C1_roundtrip_counterexample :
    ¬ |quant8 (unblendPix 6 1 ((6 : ℕ) : ℚ)
        (compositeQ ((0 : ℕ) : ℚ) ((255 : ℕ) : ℚ) ((6 : ℕ) : ℚ))
        ((255 : ℕ) : ℚ)) - ((0 : ℕ) : ℤ)| ≤ 2 := by
  have hadj : adjAlpha 1 ((6 : ℕ) : ℚ) = 6 := by
    unfold adjAlpha
    push_cast
    rw [mul_one, qmax_eq_right (by norm_num : (0 : ℚ) ≤ 6),
      qmin_eq_right (by norm_num : (6 : ℚ) ≤ 255)]
  have hc : compositeQ ((0 : ℕ) : ℚ) ((255 : ℕ) : ℚ) ((6 : ℕ) : ℚ) = 6 := by
    unfold compositeQ
    push_cast
    norm_num
  have hu : unblendPix 6 1 ((6 : ℕ) : ℚ)
      (compositeQ ((0 : ℕ) : ℚ) ((255 : ℕ) : ℚ) ((6 : ℕ) : ℚ))
      ((255 : ℕ) : ℚ) = 6 := by
    unfold unblendPix
    rw [hadj, if_neg (by norm_num), hc]
  rw [hu]
  have hq : quant8 6 = 6 := by
    unfold quant8
    rw [qmax_eq_right (by norm_num : (0 : ℚ) ≤ 6),
      qmin_eq_right (by norm_num : (6 : ℚ) ≤ 255),
      (by norm_num : (6 : ℚ) = ((6 : ℤ) : ℚ)), Int.floor_intCast]
  rw [hq]
  push_cast
  norm_num

/-- C1 amended: the round trip recovers `B` (exactly, hence within ±2)
for every background `B ≤ 255`, overlay `W ≤ 255` and 8-bit alpha with
`6 < alpha ≤ 252` (i.e. normalized alpha in `(6/255, 0.99]`, above the
transparency threshold); below the threshold the unblend step is skipped
by design and the composite is kept. -/
theorem C1_roundtrip_amended (bg w a : ℕ) (hb : bg ≤ 255) (hw : w ≤ 255)
    (ha : a ≤ 252) (ht : 6 < a) :
    |quant8 (unblendPix 6 1 (a : ℚ) (compositeQ (bg : ℚ) (w : ℚ) (a : ℚ))
      (w : ℚ)) - (bg : ℤ)| ≤ 2 := by
  have ha255 : (a : ℚ) ≤ 255 := by exact_mod_cast le_trans ha (by norm_num)
  have hlt : (a : ℚ) < 255 := by
    have : (a : ℚ) ≤ 252 := by exact_mod_cast ha
    linarith
  have h255 : (255 : ℚ) - (a : ℚ) ≠ 0 := sub_ne_zero.mpr (ne_of_gt hlt)
  have h0 : (0 : ℚ) ≤ (a : ℚ) := by positivity
  have hadj : adjAlpha 1 (a : ℚ) = (a : ℚ) := by
    unfold adjAlpha
    rw [mul_one, qmax_eq_right h0, qmin_eq_right ha255]
  have hgate : (6 : ℚ) < adjAlpha 1 (a : ℚ) := by
    rw [hadj]; exact_mod_cast ht
  unfold unblendPix
  rw [hadj, if_pos (show (6 : ℚ) < (a : ℚ) from by exact_mod_cast ht)]
  have hval : unblendVal (a : ℚ) (compositeQ (bg : ℚ) (w : ℚ) (a : ℚ))
      (w : ℚ) = (bg : ℚ) := by
    unfold unblendVal compositeQ fireDenom
    field_simp
    ring
  rw [hval]
  have hq : quant8 (bg : ℚ) = (bg : ℤ) := by
    unfold quant8
    rw [qmax_eq_right (by positivity), qmin_eq_right (by exact_mod_cast hb)]
    exact_mod_cast Int.floor_natCast bg
  rw [hq]
  simp

/-- C1 witness: the amended round trip at `B = 50`, `W = 200`,
`alpha = 100`. -/
theorem C1_roundtrip_amended_witness :
    |quant8 (unblendPix 6 1 ((100 : ℕ) : ℚ)
      (compositeQ ((50 : ℕ) : ℚ) ((200 : ℕ) : ℚ) ((100 : ℕ) : ℚ))
      ((200 : ℕ) : ℚ)) - ((50 : ℕ) : ℤ)| ≤ 2 :=
  C1_roundtrip_amended 50 200 100 (by decide) (by decide) (by decide)
    (by decide)

/-! ### Claim C2 -/

/-- C2: at a fully opaque watermark pixel (`alpha = 255`) with the
default `alpha_adjust = 1`, the pixel passes the transparency gate yet
the Fire-formula denominator `255 - alpha_val` is exactly 0 — the source
divides by it with no epsilon clamp at all (in float arithmetic this is
`255/0 → inf` and `inf - inf → NaN`), contradicting the required clamp to
at least `1e-5`. -/
theorem C2_denominator_not_clamped :
    6 < adjAlpha 1 255 ∧ fireDenom (adjAlpha 1 255) = 0 ∧
      ¬ (1 / 100000 : ℚ) ≤ fireDenom (adjAlpha 1 255) := by
  have hadj : adjAlpha 1 255 = 255 := by
    unfold adjAlpha
    rw [mul_one, qmax_eq_right (by norm_num : (0 : ℚ) ≤ 255),
      qmin_eq_right le_rfl]
  rw [hadj]
  unfold fireDenom
  norm_num

/-! ### Claim C9 -/

/-- C9: in the row scan, a pixel at column `j+1` whose adjusted alpha
exceeds both the transparency threshold and the opaque threshold is
blended with the ALREADY-PROCESSED value of its left neighbor (column
`j`) with weight `(alpha - opaque_threshold) / (255 - opaque_threshold)`,
the remaining weight going to its own Fire-formula reconstruction. -/
theorem C9_opaque_smoothing (tT oT : ℚ) (a c w : ℕ → ℚ) (j : ℕ)
    (hT : tT < a (j + 1)) (hOT : oT < a (j + 1)) :
    rowVal tT oT a c w (j + 1) =
      ((a (j + 1) - oT) / (255 - oT)) * rowVal tT oT a c w j +
        (1 - (a (j + 1) - oT) / (255 - oT)) *
          unblendVal (a (j + 1)) (c (j + 1)) (w (j + 1)) := by
  rw [rowVal, if_pos hT]
  simp only [if_pos hOT]

/-- C9 witness: the smoothing rule at column 1 of a row with constant
adjusted alpha 250 (above the default opaque threshold 240). -/
theorem C9_opaque_smoothing_witness :
    rowVal 6 240 wAlphaRow wCompRow wOverRow 1 =
      ((wAlphaRow 1 - 240) / (255 - 240)) *
          rowVal 6 240 wAlphaRow wCompRow wOverRow 0 +
        (1 - (wAlphaRow 1 - 240) / (255 - 240)) *
          unblendVal (wAlphaRow 1) (wCompRow 1) (wOverRow 1) :=
  C9_opaque_smoothing 6 240 wAlphaRow wCompRow wOverRow 0
    (by norm_num [wAlphaRow]) (by norm_num [wAlphaRow])

/-! ### Claim C3 -/

/-- C3 counterexample: with a fully opaque 10×10 watermark on a 100×100
image, the candidate `(x, y) = (99, 0)` is inside the default search
window around `(50, 50)` and IS scored by the exhaustive scan (its
clipped 1×10 sliver is 100% visible), although only 10 of the 100
footprint pixels are visible and in bounds — fewer than the 30% of the
full footprint the claim requires. -/
theorem C3_footprint_counterexample :
    inSearchWindow 50 50 140 99 0 = true ∧
      candidateScored 100 100 10 10 wmAlphaFull 99 0 = true ∧
      footprintVisibleB 100 100 10 10 wmAlphaFull 99 0 = false := by
  refine ⟨by decide, by decide, by decide⟩

/-- C3 amended: the exhaustive scan scores a candidate only if at least
30% of the CLIPPED overlap region (the in-bounds part of the footprint)
is visible; the visibility fraction is measured against
`visible_mask.size`, the clipped region's pixel count, not the full
bounding box. -/
theorem C3_visibility_amended (h_img w_img h_wm w_wm : ℤ)
    (wmAlpha : ℤ → ℤ → ℕ) (x y : ℤ)
    (h : candidateScored h_img w_img h_wm w_wm wmAlpha x y = true) :
    3 * clipSize (wm_y_start y) (wm_x_start x) (wm_y_end h_img h_wm y)
        (wm_x_end w_img w_wm x) ≤
      10 * countVisible wmAlpha (wm_y_start y) (wm_x_start x)
        (wm_y_end h_img h_wm y) (wm_x_end w_img w_wm x) := by
  unfold candidateScored at h
  split at h
  · exact absurd h (by simp)
  · split at h
    · exact absurd h (by simp)
    · simp only [Bool.not_eq_true', decide_eq_false_iff_not, not_lt] at h
      omega

/-- C3 witness: a fully visible candidate at `(45, 45)` is scored and
satisfies the clipped-region visibility bound. -/
theorem C3_visibility_amended_witness :
    3 * clipSize (wm_y_start 45) (wm_x_start 45) (wm_y_end 100 10 45)
        (wm_x_end 100 10 45) ≤
      10 * countVisible wmAlphaFull (wm_y_start 45) (wm_x_start 45)
        (wm_y_end 100 10 45) (wm_x_end 100 10 45) :=
  C3_visibility_amended 100 100 10 10 wmAlphaFull 45 45 (by decide)

/-! ### Claim C4 -/

/-- C4 counterexample: a pixel with zero watermark alpha (far below the
transparency threshold 3) inside the processed rectangle is NOT
bit-identical after the disguise filter: the BGR pixel `(0, 4, 255)`
comes back as `(0, 0, 255)` from the 8-bit HSV round trip of the
color-preserving blend, even with identity blurs. -/
theorem C4_scope_counterexample :
    ¬ (3 : ℚ) < zeroAlphaLocal 0 0 ∧
      apply_jpeg_noise_filter idBlur flatImage zeroAlphaLocal 0 0 1 1 3 4 3
          0 0 ≠
        flatImage 0 0 := by
  constructor
  · norm_num [zeroAlphaLocal]
  · rw [jpeg_filter_unmasked_pixel idBlur flatImage zeroAlphaLocal 0 0 1 1
      3 4 3 0 0 (by decide) (by norm_num [zeroAlphaLocal])]
    show hsvRoundTrip (flatImage 0 0) ≠ flatImage 0 0
    rw [show flatImage 0 0 = (0, 4, 255) from rfl, hsvRoundTrip_fixture]
    decide

/-- C4 amended: inside the processed rectangle, a pixel outside the
original alpha mask (adjusted alpha not above the transparency threshold)
is never blurred or smoothed, but it does undergo the 8-bit BGR→HSV→BGR
round trip of the color-preserving blend — its output value is exactly
`hsvRoundTrip` of its input value (which preserves the value/luminance
channel but may requantize hue and saturation), for every blur model,
image, alpha map and parameter choice. -/
theorem C4_scope_amended (B : BlurModel) (image : Grid)
    (watermark_alpha : ℕ → ℕ → ℚ) (x0 y0 x1 y1 : ℤ)
    (strength edge_threshold : ℤ) (transparency_threshold : ℚ)
    (py px : ℤ) (hin : inRectB x0 y0 x1 y1 py px = true)
    (hmask : ¬ transparency_threshold <
      watermark_alpha (py - y0).toNat (px - x0).toNat) :
    apply_jpeg_noise_filter B image watermark_alpha x0 y0 x1 y1 strength
        edge_threshold transparency_threshold py px =
      hsvRoundTrip (image py px) :=
  jpeg_filter_unmasked_pixel B image watermark_alpha x0 y0 x1 y1 strength
    edge_threshold transparency_threshold py px hin hmask

/-- C4 witness: the amended statement at the concrete fixture pixel. -/
theorem C4_scope_amended_witness :
    apply_jpeg_noise_filter idBlur flatImage zeroAlphaLocal 0 0 1 1 3 4 3
        0 0 =
      hsvRoundTrip (flatImage 0 0) :=
  C4_scope_amended idBlur flatImage zeroAlphaLocal 0 0 1 1 3 4 3 0 0
    (by decide) (by norm_num [zeroAlphaLocal])

/-! ### Claim C5 -/

/-- C5 counterexample: a 4-channel image (not 3) with a 4-channel
watermark, nonempty overlap and the JPEG filter disabled runs to
completion with no error at all — `remove_watermark` silently proceeds
instead of signalling an InvalidInput error. -/
theorem C5_validation_counterexample :
    removeChannelCheck 4 4 true true false = .ok () := rfl

/-- C5 amended: `remove_watermark` performs no upfront channel
validation.  With a nonempty overlap: a watermark with fewer than 4
channels fails with an `IndexError` at the alpha-channel read (not an
immediate InvalidInput check); an image with at least 3 channels and the
JPEG filter disabled is silently processed; with the filter enabled, a
non-3-channel image fails later inside the color conversion. -/
theorem C5_validation_amended (imgChannels wmChannels : ℕ)
    (someAlpha apply_filter : Bool) :
    (wmChannels < 4 →
      removeChannelCheck imgChannels wmChannels true someAlpha
        apply_filter = .error .indexError) ∧
    (4 ≤ wmChannels → 3 ≤ imgChannels →
      removeChannelCheck imgChannels wmChannels true someAlpha false =
        .ok ()) ∧
    (4 ≤ wmChannels → 3 ≤ imgChannels → imgChannels ≠ 3 →
      removeChannelCheck imgChannels wmChannels true someAlpha true =
        .error .cvtError) := by
  refine ⟨?_, ?_, ?_⟩
  · intro h1
    unfold removeChannelCheck
    simp [h1]
  · intro h1 h2
    unfold removeChannelCheck
    rw [if_neg (by simp), if_neg (by omega)]
    rw [if_neg (by simp [Nat.not_lt.mpr h2]), if_neg (by simp)]
  · intro h1 h2 h3
    unfold removeChannelCheck
    rw [if_neg (by simp), if_neg (by omega)]
    rw [if_neg (by simp [Nat.not_lt.mpr h2]), if_pos (by simp [h3])]

/-- C5 witness: the amended behaviors at concrete channel counts — a
3-channel watermark errors, a 4-channel image passes silently without the
filter and fails in color conversion with it. -/
theorem C5_validation_amended_witness :
    removeChannelCheck 4 3 true true false = .error .indexError ∧
      removeChannelCheck 4 4 true true false = .ok () ∧
      removeChannelCheck 4 4 true true true = .error .cvtError :=
  ⟨(C5_validation_amended 4 3 true false).1 (by decide),
    (C5_validation_amended 4 4 true false).2.1 (by decide) (by decide),
    (C5_validation_amended 4 4 true true).2.2 (by decide) (by decide)
      (by decide)⟩

/-! ### Claim C6 -/

/-- C6: every pixel outside the overlap rectangle between the
(translated) watermark's bounding box and the image is bit-identical to
the input, for every call of `remove_watermark` (with or without the
disguise filter, for every blur model); and when the overlap is empty the
whole returned image equals the input (a defined no-op). -/
theorem C6_frame_effect (B : BlurModel) (h_img w_img h_wm w_wm : ℤ)
    (image wmColor : Grid) (wmAlpha : ℤ → ℤ → ℕ) (x y : ℤ)
    (tT oT adj : ℚ) (af : Bool) (strength edgeT : ℤ) :
    (∀ py px,
      inRectB (max 0 x) (max 0 y) (min w_img (x + w_wm))
          (min h_img (y + h_wm)) py px = false →
      remove_watermark B h_img w_img h_wm w_wm image wmColor wmAlpha x y
          tT oT adj af strength edgeT py px =
        image py px) ∧
    (min w_img (x + w_wm) ≤ max 0 x ∨ min h_img (y + h_wm) ≤ max 0 y →
      remove_watermark B h_img w_img h_wm w_wm image wmColor wmAlpha x y
          tT oT adj af strength edgeT =
        image) := by
  constructor
  · intro py px hout
    simp only [remove_watermark]
    by_cases hE : min w_img (x + w_wm) ≤ max 0 x ∨
        min h_img (y + h_wm) ≤ max 0 y
    · rw [if_pos hE]
    · rw [if_neg hE]
      cases af
      · simp only [Bool.false_eq_true, if_false, remove_core, hout]
      · simp only [if_true, apply_jpeg_noise_filter, hout,
          Bool.false_eq_true, if_false, remove_core]
  · intro hE
    simp only [remove_watermark]
    rw [if_pos hE]

/-- C6 witness: a pixel outside the overlap is untouched, and an
off-image position is a complete no-op, on the concrete fixtures. -/
theorem C6_frame_effect_witness :
    remove_watermark idBlur 4 4 2 2 flatImage cWmColor wmAlphaFull 1 1 6
        240 1 true 3 4 0 0 =
      flatImage 0 0 ∧
    remove_watermark idBlur 4 4 2 2 flatImage cWmColor wmAlphaFull 10 10 6
        240 1 true 3 4 =
      flatImage :=
  ⟨(C6_frame_effect idBlur 4 4 2 2 flatImage cWmColor wmAlphaFull 1 1 6
      240 1 true 3 4).1 0 0 (by decide),
    (C6_frame_effect idBlur 4 4 2 2 flatImage cWmColor wmAlphaFull 10 10 6
      240 1 true 3 4).2 (by decide)⟩

/-! ### Claim C7 -/

/-- C7: when the accelerated path raises (any error message) or OpenCL is
unavailable or GPU use is disabled, `find_wm` transparently returns the
exhaustive CPU scan's position — the caller never observes an accelerator
failure as an error. -/
theorem C7_gpu_fallback (e : String) (backend : Except String (ℤ × ℤ))
    (hv : Bool) (h_img w_img h_wm w_wm : ℤ) (image wmColor : Grid)
    (wmAlpha : ℤ → ℤ → ℕ) (radio : ℤ) (cx cy : Option ℤ) :
    find_wm true true (.error e) h_img w_img h_wm w_wm image wmColor
        wmAlpha radio cx cy =
      find_wm_cpu h_img w_img h_wm w_wm image wmColor wmAlpha radio cx
        cy ∧
    find_wm true false backend h_img w_img h_wm w_wm image wmColor wmAlpha
        radio cx cy =
      find_wm_cpu h_img w_img h_wm w_wm image wmColor wmAlpha radio cx
        cy ∧
    find_wm false hv backend h_img w_img h_wm w_wm image wmColor wmAlpha
        radio cx cy =
      find_wm_cpu h_img w_img h_wm w_wm image wmColor wmAlpha radio cx
        cy :=
  ⟨rfl, rfl, rfl⟩

/-! ### Claim C10 -/

/-- C10: `remove_watermark` never mutates the caller's image buffer: in
the heap model, after a call the input buffer's contents are unchanged;
an empty overlap returns the untouched heap with the very same buffer id
(the input object itself), and a nonempty overlap returns a freshly
allocated buffer distinct from the input. -/
theorem C10_no_input_mutation (B : BlurModel) (h : Heap) (imgRef : ℕ)
    (h_img w_img h_wm w_wm : ℤ) (wmColor : Grid) (wmAlpha : ℤ → ℤ → ℕ)
    (x y : ℤ) (tT oT adj : ℚ) (af : Bool) (strength edgeT : ℤ)
    (href : imgRef < h.next) :
    ((remove_watermark_heap B h imgRef h_img w_img h_wm w_wm wmColor
          wmAlpha x y tT oT adj af strength edgeT).1.bufs imgRef =
      h.bufs imgRef) ∧
    (min w_img (x + w_wm) ≤ max 0 x ∨ min h_img (y + h_wm) ≤ max 0 y →
      remove_watermark_heap B h imgRef h_img w_img h_wm w_wm wmColor
          wmAlpha x y tT oT adj af strength edgeT =
        (h, imgRef)) ∧
    (¬ (min w_img (x + w_wm) ≤ max 0 x ∨
        min h_img (y + h_wm) ≤ max 0 y) →
      (remove_watermark_heap B h imgRef h_img w_img h_wm w_wm wmColor
          wmAlpha x y tT oT adj af strength edgeT).2 ≠ imgRef) := by
  simp only [remove_watermark_heap, allocBuf]
  by_cases hE : min w_img (x + w_wm) ≤ max 0 x ∨
      min h_img (y + h_wm) ≤ max 0 y
  · rw [if_pos hE]
    exact ⟨rfl, fun _ => rfl, fun hc => absurd hE hc⟩
  · rw [if_neg hE]
    cases af
    · refine ⟨?_, fun hc => absurd hc hE, fun _ => ?_⟩
      · show Function.update h.bufs h.next _ imgRef = h.bufs imgRef
        rw [Function.update_noteq (by omega)]
      · show h.next ≠ imgRef
        omega
    · refine ⟨?_, fun hc => absurd hc hE, fun _ => ?_⟩
      · show Function.update (Function.update h.bufs h.next _)
            (h.next + 1) _ imgRef = h.bufs imgRef
        rw [Function.update_noteq (by omega),
          Function.update_noteq (by omega)]
      · show h.next + 1 ≠ imgRef
        omega

/-- C10 witness: on the one-buffer heap, a call with nonempty overlap
leaves buffer 0 intact and returns a different buffer. -/
theorem C10_no_input_mutation_witness :
    ((remove_watermark_heap idBlur heap0 0 4 4 2 2 cWmColor wmAlphaFull 1
        1 6 240 1 false 3 4).1.bufs 0 = heap0.bufs 0) ∧
      ((remove_watermark_heap idBlur heap0 0 4 4 2 2 cWmColor wmAlphaFull
        1 1 6 240 1 false 3 4).2 ≠ 0) :=
  ⟨(C10_no_input_mutation idBlur heap0 0 4 4 2 2 cWmColor wmAlphaFull 1 1
      6 240 1 false 3 4 (by decide)).1,
    (C10_no_input_mutation idBlur heap0 0 4 4 2 2 cWmColor wmAlphaFull 1 1
      6 240 1 false 3 4 (by decide)).2.2 (by decide)⟩

end QuitaMarcas
